import Mathlib

/-!
Verification development for the AFMTrainer repository
(`afm_trainer/config_manager.py`, `afm_trainer/training_controller.py`,
`afm_trainer/export_handler.py`).

The Python code is shallowly embedded: Python `int` becomes `Int`,
Python `float` becomes `ℚ` (every numeric literal and arithmetic step the
claims depend on is exact in binary floating point, so `ℚ` is a faithful
model for them), strings become `String` / `List Char`, the filesystem
becomes an explicit argument (a list of existing paths), subprocess
output becomes an explicit list of lines, and a raised exception becomes
`Option.none`.  The three regular expressions of the progress monitor are
embedded as dedicated scanning functions implementing exactly the
leftmost-match semantics of Python `re.search` for those patterns.
-/

namespace AFMTrainer

/-! ## Character classes and helpers (Python `re` / `str` semantics) -/

/-- Python regex `\s` (ASCII range, which is all that subprocess log lines
contain): space, tab, newline, carriage return, vertical tab, form feed. -/
def isPySpace (c : Char) : Bool :=
  c = ' ' || c = '\t' || c = '\n' || c = '\r' || c = '\x0b' || c = '\x0c'

/-- Python `str.strip()`: remove leading and trailing whitespace. -/
def pyStrip (l : List Char) : List Char :=
  ((l.dropWhile isPySpace).reverse.dropWhile isPySpace).reverse

/-- Python `str.strip()` on `String` (used for `adapter_name.strip()`). -/
def pyStripS (s : String) : String :=
  String.mk (pyStrip s.data)

/-- Longest prefix of decimal digits, together with the rest of the input
(the greedy `\d+` step of the regexes). -/
def takeDigits : List Char → List Char × List Char
  | [] => ([], [])
  | c :: cs =>
    if c.isDigit then
      let (d, r) := takeDigits cs
      (c :: d, r)
    else ([], c :: cs)

/-- Python `int` applied to a non-empty digit group. -/
def natOfDigits (ds : List Char) : Nat :=
  ds.foldl (fun n c => 10 * n + (c.toNat - 48)) 0

/-! ## The epoch pattern `Epoch (\d+)/(\d+)`

`re.search` tries every start position from the left; at a given position
the literal `Epoch ` must match, then a maximal digit run (greedy `\d+`
backtracks only into shorter runs whose following character is a digit,
never a `/`, so effectively the full run must be followed by `/`), then
`/`, then at least one digit. -/

/-- Match `Epoch (\d+)/(\d+)` anchored at the head of the input. -/
def matchEpochAt : List Char → Option (Nat × Nat)
  | 'E' :: 'p' :: 'o' :: 'c' :: 'h' :: ' ' :: rest =>
    match takeDigits rest with
    | ([], _) => none
    | (d1, r1) =>
      match r1 with
      | '/' :: r2 =>
        match takeDigits r2 with
        | ([], _) => none
        | (d2, _) => some (natOfDigits d1, natOfDigits d2)
      | _ => none
  | _ => none

/-- Embeds `re.search` with the pattern `Epoch (\d+)/(\d+)` on a line,
returning the two captured groups as numbers. -/
def searchEpoch : List Char → Option (Nat × Nat)
  | [] => none
  | c :: cs =>
    match matchEpochAt (c :: cs) with
    | some r => some r
    | none => searchEpoch cs

/-! ## The batch pattern `Training.*?(\d+)/(\d+)`

After the literal `Training`, the lazy `.*?` grows one character at a
time, so the first position admitting `(\d+)/(\d+)` (maximal digit run
immediately followed by `/` and a digit) wins.  If no such position
exists after the first `Training`, no later occurrence of `Training` can
succeed either (its tail is a suffix), so the whole search fails. -/

/-- Lazy scan for `(\d+)/(\d+)`: try at each position from the left. -/
def matchSlashNum : List Char → Option (Nat × Nat)
  | [] => none
  | c :: cs =>
    if c.isDigit then
      match takeDigits (c :: cs) with
      | (d1, '/' :: r2) =>
        match takeDigits r2 with
        | ([], _) => matchSlashNum cs
        | (d2, _) => some (natOfDigits d1, natOfDigits d2)
      | _ => matchSlashNum cs
    else matchSlashNum cs

/-- Embeds `re.search` with the pattern `Training.*?(\d+)/(\d+)` on a line,
returning the captured groups as numbers. -/
def searchBatch : List Char → Option (Nat × Nat)
  | 'T' :: 'r' :: 'a' :: 'i' :: 'n' :: 'i' :: 'n' :: 'g' :: rest =>
    matchSlashNum rest
  | _ :: cs => searchBatch cs
  | [] => none

/-! ## The loss pattern `loss[=:]?\s*([0-9.]+)` (case-insensitive)

After a case-insensitive `loss`, an optional `=` or `:` (greedy; declining
it cannot help, because `\s*` then `[0-9.]+` can never match `=` or `:`),
then greedy whitespace (`\s` and `[0-9.]` are disjoint, so no useful
backtracking), then at least one character from `[0-9.]`. -/

/-- Characters of the class `[0-9.]`. -/
def isLossChar (c : Char) : Bool := c.isDigit || c = '.'

/-- Longest prefix of `[0-9.]` characters. -/
def takeLossChars : List Char → List Char × List Char
  | [] => ([], [])
  | c :: cs =>
    if isLossChar c then
      let (d, r) := takeLossChars cs
      (c :: d, r)
    else ([], c :: cs)

/-- Match `loss[=:]?\s*([0-9.]+)` anchored at the head, returning the raw
captured token. -/
def matchLossAt : List Char → Option (List Char)
  | l :: o :: s :: t :: rest =>
    if l.toLower = 'l' && o.toLower = 'o' && s.toLower = 's' && t.toLower = 's' then
      let rest1 :=
        match rest with
        | c :: cs => if c = '=' || c = ':' then cs else rest
        | [] => rest
      match takeLossChars (rest1.dropWhile isPySpace) with
      | ([], _) => none
      | (tok, _) => some tok
    else none
  | _ => none

/-- Embeds `re.search` with the case-insensitive pattern
`loss[=:]?\s*([0-9.]+)` on a line, returning the raw captured token
(which the code then feeds to `float`). -/
def searchLoss : List Char → Option (List Char)
  | [] => none
  | c :: cs =>
    match matchLossAt (c :: cs) with
    | some tok => some tok
    | none => searchLoss cs

/-- Python `float` applied to a non-empty string over the alphabet
`[0-9.]`: it succeeds iff the token contains at most one dot and at least
one digit; `none` models a raised `ValueError`. -/
def pyFloatQ (tok : List Char) : Option ℚ :=
  let intPart := tok.takeWhile (fun c => c ≠ '.')
  match tok.dropWhile (fun c => c ≠ '.') with
  | [] => some (natOfDigits intPart)
  | _ :: frac =>
    if frac.contains '.' then none
    else if intPart = [] ∧ frac = [] then none
    else some ((natOfDigits intPart : ℚ) + (natOfDigits frac : ℚ) / 10 ^ frac.length)

/-! ## `TrainingConfig` and `TrainingConfig.validate`
(`afm_trainer/config_manager.py`)

The filesystem is modelled as the list of paths that exist
(`Path(p).exists()` becomes membership).  Python `float` fields are
modelled as `ℚ`; `validate` only compares them with `0`, which is exact
in floating point, so the model is faithful. -/

structure TrainingConfig where
  epochs : Int := 2
  learning_rate : ℚ := 1 / 10000
  batch_size : Int := 4
  linear_warmup_epochs : Int := 1
  gradient_accumulation_steps : Int := 1
  weight_decay : ℚ := 1 / 100
  clip_grad_norm : ℚ := 1
  precision : String := "bf16-mixed"
  enable_activation_checkpointing : Bool := false
  compile_model : Bool := false
  fixed_sized_sequences : Bool := false
  pack_sequences : Bool := false
  max_sequence_length : Option Int := none
  loss_update_frequency : Int := 3
  toolkit_dir : String := ""
  train_data : String := ""
  eval_data : String := ""
  output_dir : String := ""
  adapter_name : String := "my_adapter"
  author : String := "3P developer"
  description : String := ""
  license : String := ""
  train_draft : Bool := false
deriving DecidableEq

/-- The list of accepted precision modes from `TrainingConfig.validate`. -/
def validPrecisions : List String := ["f32", "bf16", "bf16-mixed", "f16-mixed"]

/-- The method `TrainingConfig.validate(self)` from `config_manager.py`, with the
filesystem `fs` (list of existing paths) made explicit.  Each sequential
`if` of the Python method becomes one nested `if`; the returned pair is
`(is_valid, error_message)`.  The long download URL in the toolkit
message is abbreviated; no claim depends on the message text beyond its
non-emptiness. -/
def validate (fs : List String) (c : TrainingConfig) : Bool × String :=
  if c.epochs ≤ 0 then (false, "Epochs must be greater than 0")
  else if c.learning_rate ≤ 0 then (false, "Learning rate must be greater than 0")
  else if c.batch_size ≤ 0 then (false, "Batch size must be greater than 0")
  else if c.linear_warmup_epochs < 0 then (false, "Warmup epochs must be non-negative")
  else if c.gradient_accumulation_steps ≤ 0 then
    (false, "Gradient accumulation steps must be greater than 0")
  else if c.weight_decay < 0 then (false, "Weight decay must be non-negative")
  else if c.clip_grad_norm ≤ 0 then
    (false, "Gradient clipping norm must be greater than 0")
  else if c.precision ∉ validPrecisions then
    (false, "Precision must be one of [f32, bf16, bf16-mixed, f16-mixed]")
  else if c.max_sequence_length ≠ none ∧ c.max_sequence_length.getD 0 ≤ 0 then
    (false, "Max sequence length must be greater than 0")
  else if c.pack_sequences ∧ c.max_sequence_length = none then
    (false, "Max sequence length must be set when pack sequences is enabled")
  else if c.fixed_sized_sequences ∧ c.max_sequence_length = none then
    (false, "Max sequence length must be set when fixed sized sequences is enabled")
  else if c.toolkit_dir = "" then (false, "Toolkit directory is required")
  else if c.toolkit_dir ∉ fs then (false, "Toolkit directory does not exist")
  else if c.train_data = "" then (false, "Training data file is required")
  else if c.train_data ∉ fs then (false, "Training data file does not exist")
  else if c.eval_data ≠ "" ∧ c.eval_data ∉ fs then
    (false, "Evaluation data file does not exist")
  else if c.output_dir = "" then (false, "Output directory is required")
  else if pyStripS c.adapter_name = "" then (false, "Adapter name is required")
  else (true, "")

/-- Modelled from the spec's words, for comparison with the code: the
acceptance condition exactly as claim C1 states it (epochs, learning
rate, batch size, clip_grad_norm, loss_update_frequency positive; the
toolkit and training-data paths exist; eval_data empty or existing;
max_sequence_length set whenever pack_sequences or
fixed_sized_sequences). -/
def specAccepts (fs : List String) (c : TrainingConfig) : Prop :=
  0 < c.epochs ∧ 0 < c.learning_rate ∧ 0 < c.batch_size ∧ 0 < c.clip_grad_norm ∧
  0 < c.loss_update_frequency ∧ c.toolkit_dir ∈ fs ∧ c.train_data ∈ fs ∧
  (c.eval_data = "" ∨ c.eval_data ∈ fs) ∧
  (c.pack_sequences → c.max_sequence_length ≠ none) ∧
  (c.fixed_sized_sequences → c.max_sequence_length ≠ none)

instance (fs : List String) (c : TrainingConfig) : Decidable (specAccepts fs c) := by
  unfold specAccepts; infer_instance

/-- The acceptance condition the code actually implements: every check of
`TrainingConfig.validate`, as a positive conjunction.  Note that
`loss_update_frequency` does not appear: the method never checks it. -/
def codeAccepts (fs : List String) (c : TrainingConfig) : Prop :=
  0 < c.epochs ∧ 0 < c.learning_rate ∧ 0 < c.batch_size ∧
  0 ≤ c.linear_warmup_epochs ∧ 0 < c.gradient_accumulation_steps ∧
  0 ≤ c.weight_decay ∧ 0 < c.clip_grad_norm ∧ c.precision ∈ validPrecisions ∧
  0 < c.max_sequence_length.getD 1 ∧
  (c.pack_sequences → c.max_sequence_length ≠ none) ∧
  (c.fixed_sized_sequences → c.max_sequence_length ≠ none) ∧
  c.toolkit_dir ≠ "" ∧ c.toolkit_dir ∈ fs ∧ c.train_data ≠ "" ∧ c.train_data ∈ fs ∧
  (c.eval_data = "" ∨ c.eval_data ∈ fs) ∧ c.output_dir ≠ "" ∧
  pyStripS c.adapter_name ≠ ""

instance (fs : List String) (c : TrainingConfig) : Decidable (codeAccepts fs c) := by
  unfold codeAccepts; infer_instance

/-- The configuration used to separate the spec's claimed acceptance
condition from the implemented one: all implemented checks pass, but
`loss_update_frequency = 0`. -/
def c1Config : TrainingConfig :=
  { toolkit_dir := "tk", train_data := "td", output_dir := "out",
    loss_update_frequency := 0 }

/-! ## The training monitor
(`TrainingController._monitor_training_output` in
`afm_trainer/training_controller.py`)

The subprocess is abstracted by the list of lines it emits and its final
exit code; the `stop_event` by the iteration index from which
`is_set()` reads true (`none` = never). -/

/-- The mutable counters of `_monitor_training_output`
(`current_epoch`, `total_epochs`, `current_batch`, `total_batches`),
Python `int` everywhere.  `current_epoch` and `current_batch` start at
`0`, `total_batches` at `0`, `total_epochs` at `config.get("epochs", 2)`. -/
structure MonState where
  current_epoch : Int
  total_epochs : Int
  current_batch : Int
  total_batches : Int
deriving DecidableEq

/-- The progress value the monitor computes when `total_epochs > 0`:
`epoch_progress = (current_epoch - 1) / total_epochs`, plus
`current_batch / total_batches / total_epochs` when `total_batches > 0`,
then `min(progress, 1.0)`.  Note the code takes a minimum with `1` but
never a maximum with `0`. -/
def codeProgress (st : MonState) : ℚ :=
  let epoch_progress : ℚ := ((st.current_epoch : ℚ) - 1) / (st.total_epochs : ℚ)
  let progress : ℚ :=
    if 0 < st.total_batches then
      epoch_progress + (st.current_batch : ℚ) / (st.total_batches : ℚ) / (st.total_epochs : ℚ)
    else epoch_progress
  min progress 1

/-- The progress message, abstracted to its components (the Python code
interpolates them into a string; no claim depends on the rendered
text). -/
inductive ProgressMsg
  | epochBatch (current_epoch total_epochs current_batch total_batches : Int)
  | epochOnly (current_epoch total_epochs : Int)
  | completed
  | draftStarting
  | draftEpoch (current total : Nat)
  | draftCompleted
  | draftPrefixed (inner : ProgressMsg)
deriving DecidableEq

/-- One `progress_callback(progress, message)` invocation; the loss
component is carried separately (the code appends it to the message
string). -/
structure ProgressEvent where
  fraction : ℚ
  msg : ProgressMsg
  loss : Option ℚ
deriving DecidableEq

/-- The epoch/batch counter updates of one loop iteration: the epoch
pattern, if it matches, overwrites `current_epoch`/`total_epochs`, then
the batch pattern, if it matches, overwrites
`current_batch`/`total_batches`. -/
def lineUpdate (st : MonState) (line : List Char) : MonState :=
  let st1 :=
    match searchEpoch line with
    | some (a, b) => { st with current_epoch := (a : Int), total_epochs := (b : Int) }
    | none => st
  match searchBatch line with
  | some (a, b) => { st1 with current_batch := (a : Int), total_batches := (b : Int) }
  | none => st1

/-- The progress-message selection of the monitor body: epoch and batch
counts when both batch counters are positive, else epoch counts only. -/
def monitorMsg (st : MonState) : ProgressMsg :=
  if 0 < st.current_batch ∧ 0 < st.total_batches then
    ProgressMsg.epochBatch st.current_epoch st.total_epochs
      st.current_batch st.total_batches
  else ProgressMsg.epochOnly st.current_epoch st.total_epochs

/-- The body of the `for line in iter(process.stdout.readline, '')` loop
for one line (after the stop check): strip; skip empty lines; update the
counters; when `total_epochs > 0` compute the progress, build the
message, search for a loss token and convert it with `float`, and invoke
the progress callback.  `none` models the `ValueError` that `float`
raises on a token like `1.2.3`; the result otherwise is the updated state
and the list of progress events emitted for this line. -/
def monitorStep (st : MonState) (rawLine : List Char) :
    Option (MonState × List ProgressEvent) :=
  let line := pyStrip rawLine
  if line = [] then some (st, [])
  else
    let st2 := lineUpdate st line
    if 0 < st2.total_epochs then
      match searchLoss line with
      | none => some (st2, [⟨codeProgress st2, monitorMsg st2, none⟩])
      | some tok =>
        match pyFloatQ tok with
        | none => none
        | some v => some (st2, [⟨codeProgress st2, monitorMsg st2, some v⟩])
    else some (st2, [])

/-- Whether `stop_event.is_set()` reads true at loop iteration `i`, when
the event is set from iteration `stopFrom` on (`none` = never set). -/
def stopHit (stopFrom : Option Nat) (i : Nat) : Bool :=
  match stopFrom with
  | none => false
  | some s => s ≤ i

/-- How the monitoring loop ended: all lines consumed, stop observed, or
the `ValueError` from `float` (caught by the surrounding `except`). -/
inductive LoopOutcome
  | finished (st : MonState)
  | stopped
  | excFloat
deriving DecidableEq

/-- The monitoring loop: before each line the stop flag is polled; then
the line is processed by `monitorStep`.  Returns the events emitted (the
callbacks already made) and how the loop ended. -/
def monitorLoop (stopFrom : Option Nat) :
    Nat → MonState → List (List Char) → List ProgressEvent × LoopOutcome
  | _, st, [] => ([], .finished st)
  | i, st, l :: ls =>
    if stopHit stopFrom i then ([], .stopped)
    else
      match monitorStep st l with
      | none => ([], .excFloat)
      | some (st', evs) =>
        let (rest, out) := monitorLoop stopFrom (i + 1) st' ls
        (evs ++ rest, out)

/-- The monitor `_monitor_training_output`: run the loop from the initial counters,
then `process.wait()`; on exit code `0` emit
`progress_callback(1.0, "Training completed successfully")` and return
`True`; a non-zero exit code, a stop, or the caught `ValueError` all
return `False`. -/
def monitorTrainingOutput (stopFrom : Option Nat) (cfgEpochs : Int)
    (lines : List (List Char)) (exitCode : Int) : List ProgressEvent × Bool :=
  let (evs, out) := monitorLoop stopFrom 0 ⟨0, cfgEpochs, 0, 0⟩ lines
  match out with
  | .finished _ =>
    if exitCode = 0 then (evs ++ [⟨1, .completed, none⟩], true) else (evs, false)
  | .stopped => (evs, false)
  | .excFloat => (evs, false)

/-- The wrapper `main_progress_callback` in `run_training`: with draft training
enabled, main training is only 50 percent of total progress
(`progress * 0.5`); otherwise the fraction passes through unchanged. -/
def scaleMain (train_draft : Bool) (ev : ProgressEvent) : ProgressEvent :=
  if train_draft then { ev with fraction := ev.fraction * (1 / 2) } else ev

/-- The wrapper `draft_progress_callback` in `run_training`: draft training is the
second 50 percent (`0.5 + progress * 0.5`), and the message gets a
`Draft: ` prefix. -/
def scaleDraft (ev : ProgressEvent) : ProgressEvent :=
  ⟨1 / 2 + ev.fraction * (1 / 2), .draftPrefixed ev.msg, ev.loss⟩

/-! ## The line parser in isolation (claim C4) -/

/-- The record of tokens one line yields: optional epoch pair, optional
batch pair, optional loss value. -/
structure ParsedLine where
  epoch : Option (Nat × Nat)
  batch : Option (Nat × Nat)
  loss : Option ℚ
deriving DecidableEq

/-- Extraction of the epoch, batch and loss tokens from one line, exactly
as the monitor body performs it: the three `re.search` calls plus the
`float` conversion of the loss group.  `none` models the `ValueError`
raised by `float` when the captured token is not a valid float literal
(for example `1.2.3`). -/
def parseLine (line : List Char) : Option ParsedLine :=
  match searchLoss line with
  | none => some ⟨searchEpoch line, searchBatch line, none⟩
  | some tok =>
    match pyFloatQ tok with
    | none => none
    | some v => some ⟨searchEpoch line, searchBatch line, some v⟩

/-! ## The spec's progress formula (for the refinement claims) -/

/-- Clamping to the unit interval, as written in the spec's formula. -/
def clamp01 (x : ℚ) : ℚ := max 0 (min x 1)

/-- Modelled from the spec's words (its progress-model contract), for
comparison with the code: `fraction = stage_offset + stage_weight *
clamp(((current_epoch-1)/total_epochs) +
(current_batch/total_batches/total_epochs), 0, 1)`, where the batch term
is absent when the batch counters are absent. -/
def specFraction (stage_weight stage_offset : ℚ)
    (current_epoch total_epochs current_batch total_batches : Int) : ℚ :=
  stage_offset + stage_weight * clamp01
    (((current_epoch : ℚ) - 1) / (total_epochs : ℚ) +
      (if 0 < total_batches then
        (current_batch : ℚ) / (total_batches : ℚ) / (total_epochs : ℚ)
      else 0))

/-! ## Draft-model training
(`TrainingController._train_draft_model`) -/

/-- A file in the output directory: its name and its modification time
(`st_mtime`). -/
structure FileEntry where
  name : String
  mtime : Int
deriving DecidableEq

/-- The `fnmatch` test against the glob pattern `adapter-*.pt`: the name is
`adapter-` ++ anything ++ `.pt` (for names of length at least 11 the
prefix and suffix cannot overlap, so this is exactly starts-with and
ends-with plus the length bound). -/
def fnmatchAdapterPt (name : String) : Bool :=
  "adapter-".data.isPrefixOf name.data && ".pt".data.isSuffixOf name.data
    && 11 ≤ name.data.length

/-- Embeds `list(output_dir.glob("adapter-*.pt"))`. -/
def globAdapterCkpts (files : List FileEntry) : List FileEntry :=
  files.filter (fun f => fnmatchAdapterPt f.name)

/-- One comparison step of Python `max(..., key=mtime)`: the running
maximum is replaced only on a strictly greater key. -/
def maxStep (best x : FileEntry) : FileEntry :=
  if best.mtime < x.mtime then x else best

/-- Python `max(checkpoints, key=lambda x: x.stat().st_mtime)` on a
possibly empty list: `none` on `[]`, otherwise the first entry whose
mtime is maximal. -/
def pyMaxByMtime : List FileEntry → Option FileEntry
  | [] => none
  | f :: rest => some (rest.foldl maxStep f)

/-- One line of the draft-training loop: strip, skip empty, search only
the epoch pattern, and on a match emit
`progress = (current - 1) / total if total > 0 else 0.0`. -/
def draftLineEvents (raw : List Char) : List ProgressEvent :=
  let line := pyStrip raw
  if line = [] then []
  else
    match searchEpoch line with
    | some (cur, total) =>
      [⟨if 0 < total then ((cur : ℚ) - 1) / (total : ℚ) else 0,
        .draftEpoch cur total, none⟩]
    | none => []

/-- The draft-training output loop; the stop flag is polled before each
line, and observing it terminates the process and fails the stage.
Returns the events emitted and whether the loop was stopped. -/
def draftLoop (stopFrom : Option Nat) : Nat → List (List Char) → List ProgressEvent × Bool
  | _, [] => ([], false)
  | i, l :: ls =>
    if stopHit stopFrom i then ([], true)
    else
      let (rest, stopped) := draftLoop stopFrom (i + 1) ls
      (draftLineEvents l ++ rest, stopped)

/-- The stage `_train_draft_model`: glob `adapter-*.pt` in the output directory; if
the list is empty, return `False` without spawning anything; otherwise
select the checkpoint with the latest mtime, spawn the draft process,
emit the starting event, run the loop, and report success exactly on a
clean exit code 0.  Returns
`(spawned, checkpoint used, events, success)`. -/
def trainDraftModel (files : List FileEntry) (stopFrom : Option Nat)
    (lines : List (List Char)) (exitCode : Int) :
    Bool × Option FileEntry × List ProgressEvent × Bool :=
  match pyMaxByMtime (globAdapterCkpts files) with
  | none => (false, none, [], false)
  | some latest =>
    let (evs, stopped) := draftLoop stopFrom 0 lines
    if stopped then (true, some latest, ⟨0, .draftStarting, none⟩ :: evs, false)
    else if exitCode = 0 then
      (true, some latest,
        ⟨0, .draftStarting, none⟩ :: evs ++ [⟨1, .draftCompleted, none⟩], true)
    else (true, some latest, ⟨0, .draftStarting, none⟩ :: evs, false)

/-! ## `run_training` (orchestration, filesystem effect, stage scaling) -/

/-- A directory path as its list of components. -/
abbrev DirPath := List String

/-- All non-empty prefixes of a path, shortest first: the directories
`Path(p).mkdir(parents=True, exist_ok=True)` guarantees to exist. -/
def pathPrefixes : DirPath → List DirPath
  | [] => []
  | c :: rest => [c] :: (pathPrefixes rest).map (fun p => c :: p)

/-- The call `output_dir.mkdir(parents=True, exist_ok=True)` on the
directories-that-exist model: afterwards every prefix of the path exists
(already-existing directories are untouched; the model tracks membership
only, so appending is adequate). -/
def mkdirParents (fs : List DirPath) (p : DirPath) : List DirPath :=
  fs ++ pathPrefixes p

/-- The externally visible effects of `run_training`, in program order. -/
inductive RunEffect
  | mkdirOutput (p : DirPath)
  | spawnMain
  | spawnDraft
deriving DecidableEq

/-- What one `run_training` call produces: the filesystem afterwards, the
effect trace, the progress events delivered to the caller's callback, and
the returned boolean. -/
structure RunResult where
  fs : List DirPath
  trace : List RunEffect
  events : List ProgressEvent
  success : Bool

/-- The method `TrainingController.run_training`: create the output directory
(parents included, exist_ok), spawn the main training process, monitor it
with `main_progress_callback` scaling, and if that succeeded and
`train_draft` is set, run `_train_draft_model` with
`draft_progress_callback` scaling; the returned boolean is the main
success conjoined with the draft success. -/
def runTraining (fs : List DirPath) (output_dir : DirPath) (cfgEpochs : Int)
    (train_draft : Bool) (mainLines : List (List Char)) (mainExit : Int)
    (stopFrom : Option Nat) (draftFiles : List FileEntry)
    (draftStopFrom : Option Nat) (draftLines : List (List Char))
    (draftExit : Int) : RunResult :=
  let fs1 := mkdirParents fs output_dir
  let (mainEvs, mainOk) := monitorTrainingOutput stopFrom cfgEpochs mainLines mainExit
  let scaled := mainEvs.map (scaleMain train_draft)
  if mainOk ∧ train_draft then
    let (spawned, _ckpt, dEvs, dOk) :=
      trainDraftModel draftFiles draftStopFrom draftLines draftExit
    { fs := fs1,
      trace := [.mkdirOutput output_dir, .spawnMain]
        ++ (if spawned then [.spawnDraft] else []),
      events := scaled ++ dEvs.map scaleDraft,
      success := mainOk && dOk }
  else
    { fs := fs1, trace := [.mkdirOutput output_dir, .spawnMain],
      events := scaled, success := mainOk }

/-! ## Stopping (`TrainingController.stop_training`) -/

/-- The single live subprocess, abstracted to the one fact the
termination sequence depends on: whether it exits within the 5-second
grace period after `terminate()`. -/
structure ProcHandle where
  exitsWithinGrace : Bool
deriving DecidableEq

/-- The signals `stop_training` can send: `process.terminate()` and
`process.kill()`. -/
inductive StopAction
  | terminate
  | kill
deriving DecidableEq

/-- The grace period passed to `process.wait(timeout=5)`. -/
def stopGraceSeconds : Nat := 5

/-- The controller's state visible to `stop_training` and
`get_training_status`: the current process (if any) and the stop flag. -/
structure ControllerState where
  process : Option ProcHandle
  stopSet : Bool
deriving DecidableEq

/-- The method `stop_training`: set the stop event; if a process exists, terminate
it, wait up to `stopGraceSeconds`, and kill it only if it did not exit in
time.  Returns the new state and the signals sent. -/
def stopTraining (s : ControllerState) : ControllerState × List StopAction :=
  let s' : ControllerState := { s with stopSet := true }
  match s'.process with
  | none => (s', [])
  | some p => (s', if p.exitsWithinGrace then [.terminate] else [.terminate, .kill])

/-- The method `get_training_status`: `"idle"` when no process exists, otherwise
`"running"` (the completed/failed refinements of a finished process are
not needed by any claim and are not modelled). -/
def getTrainingStatus (s : ControllerState) : String :=
  match s.process with
  | none => "idle"
  | some _ => "running"

/-! ## Export (`ExportHandler.export_adapter` in
`afm_trainer/export_handler.py`)

The checkpoint search, the toolkit-directory search, and the subprocess
are abstracted to their results; what remains is the decision structure
of `export_adapter`: every raised exception is caught by the handlers at
the bottom of the method and converted to `False`, and the distinct
failure paths are distinguishable. -/

/-- The distinct ways `export_adapter` can end. -/
inductive ExportOutcome
  | success
  | noCheckpoint
  | noToolkit
  | processExitFailure (code : Int)
  | artifactMissing
deriving DecidableEq

/-- The method `export_adapter`: no adapter checkpoint raises (→ `noCheckpoint`); no
toolkit directory raises (→ `noToolkit`); a non-zero exit code raises
`CalledProcessError` (→ `processExitFailure`); with exit code 0 the
method checks `output_dir / (adapter_name + ".fmadapter")` on disk and
raises if it is absent (→ `artifactMissing`); only an existing artifact
yields `success`. -/
def exportAdapter (adapterCkpt : Option FileEntry) (toolkitFound : Bool)
    (exitCode : Int) (artifactExists : Bool) : ExportOutcome :=
  match adapterCkpt with
  | none => .noCheckpoint
  | some _ =>
    if toolkitFound = false then .noToolkit
    else if exitCode ≠ 0 then .processExitFailure exitCode
    else if artifactExists then .success
    else .artifactMissing

/-- The boolean `export_adapter` actually returns: `True` exactly on
`success`, since every failure outcome is an exception caught by a
handler that returns `False`. -/
def exportAdapterBool (adapterCkpt : Option FileEntry) (toolkitFound : Bool)
    (exitCode : Int) (artifactExists : Bool) : Bool :=
  match exportAdapter adapterCkpt toolkitFound exitCode artifactExists with
  | .success => true
  | _ => false

/-! ## Helper lemmas -/

lemma maxStep_mtime_le_left (best x : FileEntry) : best.mtime ≤ (maxStep best x).mtime := by
  unfold maxStep
  split_ifs with h
  · exact le_of_lt h
  · exact le_rfl

lemma maxStep_mtime_le_right (best x : FileEntry) : x.mtime ≤ (maxStep best x).mtime := by
  unfold maxStep
  split_ifs with h
  · exact le_rfl
  · exact not_lt.mp h

lemma maxStep_cases (best x : FileEntry) : maxStep best x = best ∨ maxStep best x = x := by
  unfold maxStep
  split_ifs <;> simp

lemma foldl_maxStep_mem (l : List FileEntry) : ∀ init : FileEntry,
    l.foldl maxStep init = init ∨ l.foldl maxStep init ∈ l := by
  induction l with
  | nil => exact fun _ => Or.inl rfl
  | cons x xs ih =>
    intro init
    rw [List.foldl_cons]
    rcases ih (maxStep init x) with h | h
    · rw [h]
      rcases maxStep_cases init x with h2 | h2
      · exact Or.inl h2
      · exact Or.inr (by rw [h2]; exact List.mem_cons_self x xs)
    · exact Or.inr (List.mem_cons_of_mem x h)

lemma foldl_maxStep_le_init (l : List FileEntry) : ∀ init : FileEntry,
    init.mtime ≤ (l.foldl maxStep init).mtime := by
  induction l with
  | nil => exact fun _ => le_rfl
  | cons x xs ih =>
    intro init
    rw [List.foldl_cons]
    exact le_trans (maxStep_mtime_le_left init x) (ih (maxStep init x))

lemma foldl_maxStep_ge (l : List FileEntry) : ∀ (init g : FileEntry), g ∈ l →
    g.mtime ≤ (l.foldl maxStep init).mtime := by
  induction l with
  | nil => intro _ _ h; cases h
  | cons x xs ih =>
    intro init g hg
    rw [List.foldl_cons]
    rcases List.mem_cons.mp hg with h | h
    · subst h
      exact le_trans (maxStep_mtime_le_right init g) (foldl_maxStep_le_init xs (maxStep init g))
    · exact ih (maxStep init x) g h

lemma pyMaxByMtime_mem {l : List FileEntry} {f : FileEntry}
    (h : pyMaxByMtime l = some f) : f ∈ l := by
  cases l with
  | nil => simp [pyMaxByMtime] at h
  | cons x xs =>
    simp only [pyMaxByMtime, Option.some.injEq] at h
    subst h
    rcases foldl_maxStep_mem xs x with h2 | h2
    · rw [h2]; exact List.mem_cons_self x xs
    · exact List.mem_cons_of_mem x h2

lemma pyMaxByMtime_ge {l : List FileEntry} {f : FileEntry}
    (h : pyMaxByMtime l = some f) : ∀ g ∈ l, g.mtime ≤ f.mtime := by
  cases l with
  | nil => simp [pyMaxByMtime] at h
  | cons x xs =>
    simp only [pyMaxByMtime, Option.some.injEq] at h
    subst h
    intro g hg
    rcases List.mem_cons.mp hg with h2 | h2
    · subst h2; exact foldl_maxStep_le_init xs g
    · exact foldl_maxStep_ge xs x g h2

lemma pyMaxByMtime_eq_none {l : List FileEntry} : pyMaxByMtime l = none ↔ l = [] := by
  cases l <;> simp [pyMaxByMtime]

lemma monitorLoop_finished_le {s : Nat} :
    ∀ (lines : List (List Char)) (i : Nat) (st st' : MonState),
      (monitorLoop (some s) i st lines).2 = LoopOutcome.finished st' →
      lines = [] ∨ i + lines.length ≤ s := by
  intro lines
  induction lines with
  | nil => exact fun _ _ _ _ => Or.inl rfl
  | cons l ls ih =>
    intro i st st' h
    right
    simp only [monitorLoop] at h
    by_cases hs : stopHit (some s) i
    · rw [if_pos hs] at h
      exact absurd h (by simp)
    · rw [if_neg hs] at h
      simp only [stopHit, decide_eq_true_eq] at hs
      cases hm : monitorStep st l with
      | none => rw [hm] at h; exact absurd h (by simp)
      | some p =>
        rw [hm] at h
        rcases p with ⟨st2, evs⟩
        simp only at h
        rcases hr : monitorLoop (some s) (i + 1) st2 ls with ⟨rest, out⟩
        rw [hr] at h
        simp only at h
        subst h
        rcases ih (i + 1) st2 st' (by rw [hr]) with h2 | h2
        · subst h2; simp; omega
        · simp only [List.length_cons]; omega

lemma take_mem_pathPrefixes : ∀ (p : DirPath) (n : Nat), 0 < n → n ≤ p.length →
    p.take n ∈ pathPrefixes p := by
  intro p
  induction p with
  | nil => intro n h1 h2; simp at h2; omega
  | cons c rest ih =>
    intro n h1 h2
    cases n with
    | zero => omega
    | succ m =>
      rw [List.take_succ_cons]
      simp only [pathPrefixes]
      rcases Nat.eq_zero_or_pos m with hm | hm
      · subst hm
        simp
      · apply List.mem_cons_of_mem
        apply List.mem_map_of_mem (fun q => c :: q)
        exact ih m hm (by simp at h2; omega)

lemma self_mem_pathPrefixes (p : DirPath) (h : p ≠ []) : p ∈ pathPrefixes p := by
  have h2 := take_mem_pathPrefixes p p.length (by cases p with
    | nil => exact absurd rfl h
    | cons a l => simp) le_rfl
  simpa using h2

lemma getD_conflict (o : Option Int) (h : o ≠ none ∧ o.getD 0 ≤ 0)
    (h2 : 0 < o.getD 1) : False := by
  cases o with
  | none => exact h.1 rfl
  | some m =>
    obtain ⟨-, hle⟩ := h
    simp only [Option.getD_some] at hle h2
    omega

lemma getD_one_pos_of_not_nonpos (o : Option Int)
    (h : ¬(o ≠ none ∧ o.getD 0 ≤ 0)) : 0 < o.getD 1 := by
  cases o with
  | none => simp
  | some m =>
    simp only [Option.getD_some] at h ⊢
    by_cases hm : m ≤ 0
    · exact absurd ⟨by simp, hm⟩ h
    · omega

lemma monitorStep_cases {st : MonState} {raw : List Char} {st' : MonState}
    {evs : List ProgressEvent} (h : monitorStep st raw = some (st', evs)) :
    (pyStrip raw = [] ∧ st' = st ∧ evs = []) ∨
    (pyStrip raw ≠ [] ∧ st' = lineUpdate st (pyStrip raw) ∧
      ((0 < st'.total_epochs ∧
          ∃ lv : Option ℚ, evs = [⟨codeProgress st', monitorMsg st', lv⟩]) ∨
        (¬ 0 < st'.total_epochs ∧ evs = []))) := by
  simp only [monitorStep] at h
  by_cases hempty : pyStrip raw = []
  · rw [if_pos hempty] at h
    simp only [Option.some.injEq, Prod.mk.injEq] at h
    exact Or.inl ⟨hempty, h.1.symm, h.2.symm⟩
  · rw [if_neg hempty] at h
    by_cases hte : 0 < (lineUpdate st (pyStrip raw)).total_epochs
    · rw [if_pos hte] at h
      cases hls : searchLoss (pyStrip raw) with
      | none =>
        rw [hls] at h
        simp only [Option.some.injEq, Prod.mk.injEq] at h
        obtain ⟨hst, hevs⟩ := h
        subst hst
        exact Or.inr ⟨hempty, rfl, Or.inl ⟨hte, none, hevs.symm⟩⟩
      | some tok =>
        rw [hls] at h
        dsimp only at h
        cases hpf : pyFloatQ tok with
        | none =>
          rw [hpf] at h
          exact absurd h (by simp)
        | some v =>
          rw [hpf] at h
          simp only [Option.some.injEq, Prod.mk.injEq] at h
          obtain ⟨hst, hevs⟩ := h
          subst hst
          exact Or.inr ⟨hempty, rfl, Or.inl ⟨hte, some v, hevs.symm⟩⟩
    · rw [if_neg hte] at h
      simp only [Option.some.injEq, Prod.mk.injEq] at h
      obtain ⟨hst, hevs⟩ := h
      subst hst
      exact Or.inr ⟨hempty, rfl, Or.inr ⟨hte, hevs.symm⟩⟩

lemma monitorStep_fraction_le_one {st : MonState} {raw : List Char} {st' : MonState}
    {evs : List ProgressEvent} (h : monitorStep st raw = some (st', evs)) :
    ∀ ev ∈ evs, ev.fraction ≤ 1 := by
  intro ev hev
  rcases monitorStep_cases h with ⟨-, -, hevs⟩ | ⟨-, -, ⟨-, lv, hevs⟩ | ⟨-, hevs⟩⟩
  · subst hevs; cases hev
  · subst hevs
    rw [List.mem_singleton] at hev
    subst hev
    show codeProgress st' ≤ 1
    unfold codeProgress
    exact min_le_right _ _
  · subst hevs; cases hev

lemma monitorLoop_fraction_le_one (stopFrom : Option Nat) :
    ∀ (lines : List (List Char)) (i : Nat) (st : MonState),
      ∀ ev ∈ (monitorLoop stopFrom i st lines).1, ev.fraction ≤ 1 := by
  intro lines
  induction lines with
  | nil => intro i st ev hev; simp [monitorLoop] at hev
  | cons l ls ih =>
    intro i st ev hev
    simp only [monitorLoop] at hev
    by_cases hs : stopHit stopFrom i
    · rw [if_pos hs] at hev; cases hev
    · rw [if_neg hs] at hev
      cases hm : monitorStep st l with
      | none => rw [hm] at hev; cases hev
      | some p =>
        rcases p with ⟨st2, evs⟩
        rw [hm] at hev
        dsimp only at hev
        rcases List.mem_append.mp hev with hev | hev
        · exact monitorStep_fraction_le_one hm ev hev
        · exact ih (i + 1) st2 ev hev

lemma monitor_success_getLast {stopFrom : Option Nat} {cfgEpochs : Int}
    {lines : List (List Char)} {exitCode : Int}
    (h : (monitorTrainingOutput stopFrom cfgEpochs lines exitCode).2 = true) :
    (monitorTrainingOutput stopFrom cfgEpochs lines exitCode).1.getLast?
      = some ⟨1, .completed, none⟩ := by
  unfold monitorTrainingOutput at h ⊢
  rcases hr : monitorLoop stopFrom 0 ⟨0, cfgEpochs, 0, 0⟩ lines with ⟨evs, out⟩
  cases out with
  | finished st =>
    simp only [hr] at h ⊢
    by_cases he : exitCode = 0
    · rw [if_pos he]
      exact List.getLast?_concat evs
    · rw [if_neg he] at h
      exact absurd h (by simp)
  | stopped =>
    simp only [hr] at h
    exact absurd h (by simp)
  | excFloat =>
    simp only [hr] at h
    exact absurd h (by simp)

lemma draft_success_events {files : List FileEntry} {stopFrom : Option Nat}
    {lines : List (List Char)} {exitCode : Int}
    (h : (trainDraftModel files stopFrom lines exitCode).2.2.2 = true) :
    (trainDraftModel files stopFrom lines exitCode).2.2.1.getLast?
      = some ⟨1, .draftCompleted, none⟩ := by
  unfold trainDraftModel at h ⊢
  cases hm : pyMaxByMtime (globAdapterCkpts files) with
  | none =>
    rw [hm] at h
    exact absurd h (by simp)
  | some latest =>
    rw [hm] at h
    rcases hd : draftLoop stopFrom 0 lines with ⟨evs, stopped⟩
    rw [hd] at h
    dsimp only at h ⊢
    by_cases hstop : stopped = true
    · rw [if_pos hstop] at h
      exact absurd h (by simp)
    · rw [if_neg hstop] at h ⊢
      by_cases he : exitCode = 0
      · rw [if_pos he]
        exact List.getLast?_concat _
      · rw [if_neg he] at h
        exact absurd h (by simp)

section ClaimTheorems
attribute [local semireducible] Rat.add Rat.mul Rat.inv Rat.sub

/-! ## Claim C1 -/

/-- C1 counterexample: the claim states validation accepts if and only if
its listed conditions (which include `loss_update_frequency > 0`) hold;
but `validate` never checks `loss_update_frequency`, so this concrete
configuration with `loss_update_frequency = 0` is accepted while the
claimed condition fails. -/
theorem C1_counterexample :
    (validate ["tk", "td"] c1Config).1 = true ∧
    ¬ specAccepts ["tk", "td"] c1Config := by
  decide

set_option maxHeartbeats 1600000 in
/-- C1 amended: `validate` accepts iff every check it actually performs
passes (`codeAccepts`): epochs, learning rate, batch size positive;
warmup epochs and weight decay non-negative; gradient accumulation steps
and clip_grad_norm positive; a valid precision mode; a positive
max_sequence_length whenever it is set, and it must be set when
pack_sequences or fixed_sized_sequences is enabled; toolkit_dir and
train_data non-empty and existing; eval_data empty or existing;
output_dir non-empty; adapter_name non-blank.  `loss_update_frequency`
is not checked.  On rejection the returned message (describing the first
violated check) is non-empty. -/
theorem C1_validate_characterization (fs : List String) (c : TrainingConfig) :
    ((validate fs c).1 = true ↔ codeAccepts fs c) ∧
    ((validate fs c).1 = false → (validate fs c).2 ≠ "") := by
  unfold validate codeAccepts
  by_cases h1 : c.epochs ≤ 0
  · rw [if_pos h1]
    refine ⟨iff_of_false (by simp) ?_, fun _ => by decide⟩
    rintro ⟨a1, -⟩; omega
  rw [if_neg h1]
  by_cases h2 : c.learning_rate ≤ 0
  · rw [if_pos h2]
    refine ⟨iff_of_false (by simp) ?_, fun _ => by decide⟩
    rintro ⟨-, a2, -⟩; exact absurd a2 (not_lt.mpr h2)
  rw [if_neg h2]
  by_cases h3 : c.batch_size ≤ 0
  · rw [if_pos h3]
    refine ⟨iff_of_false (by simp) ?_, fun _ => by decide⟩
    rintro ⟨-, -, a3, -⟩; omega
  rw [if_neg h3]
  by_cases h4 : c.linear_warmup_epochs < 0
  · rw [if_pos h4]
    refine ⟨iff_of_false (by simp) ?_, fun _ => by decide⟩
    rintro ⟨-, -, -, a4, -⟩; omega
  rw [if_neg h4]
  by_cases h5 : c.gradient_accumulation_steps ≤ 0
  · rw [if_pos h5]
    refine ⟨iff_of_false (by simp) ?_, fun _ => by decide⟩
    rintro ⟨-, -, -, -, a5, -⟩; omega
  rw [if_neg h5]
  by_cases h6 : c.weight_decay < 0
  · rw [if_pos h6]
    refine ⟨iff_of_false (by simp) ?_, fun _ => by decide⟩
    rintro ⟨-, -, -, -, -, a6, -⟩; exact absurd h6 (not_lt.mpr a6)
  rw [if_neg h6]
  by_cases h7 : c.clip_grad_norm ≤ 0
  · rw [if_pos h7]
    refine ⟨iff_of_false (by simp) ?_, fun _ => by decide⟩
    rintro ⟨-, -, -, -, -, -, a7, -⟩; exact absurd a7 (not_lt.mpr h7)
  rw [if_neg h7]
  by_cases h8 : c.precision ∉ validPrecisions
  · rw [if_pos h8]
    refine ⟨iff_of_false (by simp) ?_, fun _ => by decide⟩
    rintro ⟨-, -, -, -, -, -, -, a8, -⟩; exact h8 a8
  rw [if_neg h8]
  by_cases h9 : c.max_sequence_length ≠ none ∧ c.max_sequence_length.getD 0 ≤ 0
  · rw [if_pos h9]
    refine ⟨iff_of_false (by simp) ?_, fun _ => by decide⟩
    rintro ⟨-, -, -, -, -, -, -, -, a9, -⟩
    exact getD_conflict c.max_sequence_length h9 a9
  rw [if_neg h9]
  by_cases h10 : c.pack_sequences ∧ c.max_sequence_length = none
  · rw [if_pos h10]
    refine ⟨iff_of_false (by simp) ?_, fun _ => by decide⟩
    rintro ⟨-, -, -, -, -, -, -, -, -, a10, -⟩; exact a10 h10.1 h10.2
  rw [if_neg h10]
  by_cases h11 : c.fixed_sized_sequences ∧ c.max_sequence_length = none
  · rw [if_pos h11]
    refine ⟨iff_of_false (by simp) ?_, fun _ => by decide⟩
    rintro ⟨-, -, -, -, -, -, -, -, -, -, a11, -⟩; exact a11 h11.1 h11.2
  rw [if_neg h11]
  by_cases h12 : c.toolkit_dir = ""
  · rw [if_pos h12]
    refine ⟨iff_of_false (by simp) ?_, fun _ => by decide⟩
    rintro ⟨-, -, -, -, -, -, -, -, -, -, -, a12, -⟩; exact a12 h12
  rw [if_neg h12]
  by_cases h13 : c.toolkit_dir ∉ fs
  · rw [if_pos h13]
    refine ⟨iff_of_false (by simp) ?_, fun _ => by decide⟩
    rintro ⟨-, -, -, -, -, -, -, -, -, -, -, -, a13, -⟩; exact h13 a13
  rw [if_neg h13]
  by_cases h14 : c.train_data = ""
  · rw [if_pos h14]
    refine ⟨iff_of_false (by simp) ?_, fun _ => by decide⟩
    rintro ⟨-, -, -, -, -, -, -, -, -, -, -, -, -, a14, -⟩; exact a14 h14
  rw [if_neg h14]
  by_cases h15 : c.train_data ∉ fs
  · rw [if_pos h15]
    refine ⟨iff_of_false (by simp) ?_, fun _ => by decide⟩
    rintro ⟨-, -, -, -, -, -, -, -, -, -, -, -, -, -, a15, -⟩; exact h15 a15
  rw [if_neg h15]
  by_cases h16 : c.eval_data ≠ "" ∧ c.eval_data ∉ fs
  · rw [if_pos h16]
    refine ⟨iff_of_false (by simp) ?_, fun _ => by decide⟩
    rintro ⟨-, -, -, -, -, -, -, -, -, -, -, -, -, -, -, a16, -⟩
    rcases a16 with he | he
    · exact h16.1 he
    · exact h16.2 he
  rw [if_neg h16]
  by_cases h17 : c.output_dir = ""
  · rw [if_pos h17]
    refine ⟨iff_of_false (by simp) ?_, fun _ => by decide⟩
    rintro ⟨-, -, -, -, -, -, -, -, -, -, -, -, -, -, -, -, a17, -⟩; exact a17 h17
  rw [if_neg h17]
  by_cases h18 : pyStripS c.adapter_name = ""
  · rw [if_pos h18]
    refine ⟨iff_of_false (by simp) ?_, fun _ => by decide⟩
    rintro ⟨-, -, -, -, -, -, -, -, -, -, -, -, -, -, -, -, -, a18⟩; exact a18 h18
  rw [if_neg h18]
  refine ⟨iff_of_true rfl
    ⟨by omega, not_le.mp h2, by omega, by omega, by omega, not_lt.mp h6,
      not_le.mp h7, not_not.mp h8, ?_, ?_, ?_, h12, not_not.mp h13, h14,
      not_not.mp h15, ?_, h17, h18⟩, fun hf => absurd hf (by simp)⟩
  · exact getD_one_pos_of_not_nonpos c.max_sequence_length h9
  · intro hp hm
    exact h10 ⟨hp, hm⟩
  · intro hp hm
    exact h11 ⟨hp, hm⟩
  · refine or_iff_not_imp_left.mpr fun hne => ?_
    exact not_not.mp fun hnm => h16 ⟨hne, hnm⟩
/-- Witness for C1: the default configuration on an empty filesystem is
rejected with a non-empty message. -/
theorem C1_validate_characterization_witness :
    (validate [] ({} : TrainingConfig)).1 = false ∧
    (validate [] ({} : TrainingConfig)).2 ≠ "" :=
  ⟨by decide, (C1_validate_characterization [] ({} : TrainingConfig)).2 (by decide)⟩

/-! ## Claim C4 -/

/-- C4: the claim says token extraction raises no exception on malformed
input.  The code contradicts it: on the line `loss: 1.2.3` the loss
pattern captures `1.2.3` and Python `float` raises `ValueError`
(modelled by `none`); the surrounding `except` then aborts monitoring and
reports the run failed, shown by the last conjunct (exit code 0 but
result `False` and no events).  The other conjuncts are the spec's own
parser test vectors, which do hold. -/
theorem C4_parse_behavior :
    parseLine ("loss: 1.2.3".data) = none ∧
    parseLine ("random text".data) = some ⟨none, none, none⟩ ∧
    parseLine ("Epoch 2/5".data) = some ⟨some (2, 5), none, none⟩ ∧
    parseLine ("Training 10/20 | loss: 0.4532".data)
      = some ⟨none, some (10, 20), some (4532 / 10000)⟩ ∧
    monitorTrainingOutput none 2 ["loss: 1.2.3".data] 0 = ([], false) := by
  decide

/-! ## Claim C5 -/

/-- C5: `stop()` before any process has started is a no-op that leaves
the controller idle; `stop()` with a live process sends terminate, and
kill exactly when the process does not exit within the 5-second grace
period; and a stop observed before the output lines are exhausted makes
the monitored run report non-success. -/
theorem C5_stop_semantics :
    (∀ b : Bool, stopTraining ⟨none, b⟩ = (⟨none, true⟩, []) ∧
      getTrainingStatus ⟨none, b⟩ = "idle" ∧
      getTrainingStatus (stopTraining ⟨none, b⟩).1 = "idle") ∧
    (∀ (p : ProcHandle) (b : Bool),
      StopAction.terminate ∈ (stopTraining ⟨some p, b⟩).2 ∧
      (StopAction.kill ∈ (stopTraining ⟨some p, b⟩).2 ↔ p.exitsWithinGrace = false)) ∧
    (∀ (s : Nat) (cfgEpochs : Int) (lines : List (List Char)) (exitCode : Int),
      s < lines.length →
      (monitorTrainingOutput (some s) cfgEpochs lines exitCode).2 = false) ∧
    stopGraceSeconds = 5 := by
  refine ⟨fun b => ⟨rfl, rfl, rfl⟩, ?_, ?_, rfl⟩
  · intro p b
    rcases p with ⟨ex⟩
    cases ex <;> cases b <;> decide
  · intro s cfgEpochs lines exitCode h
    unfold monitorTrainingOutput
    rcases hr : monitorLoop (some s) 0 ⟨0, cfgEpochs, 0, 0⟩ lines with ⟨evs, out⟩
    cases out with
    | finished st' =>
      rcases monitorLoop_finished_le lines 0 ⟨0, cfgEpochs, 0, 0⟩ st' (by rw [hr]) with
        h2 | h2
      · subst h2; simp at h
      · omega
    | stopped => simp [hr]
    | excFloat => simp [hr]

/-- Witness for C5: the concrete application with the stop flag set from
iteration 0 and one pending output line. -/
theorem C5_stop_semantics_witness :
    0 < [("x".data : List Char)].length ∧
    (monitorTrainingOutput (some 0) 2 ["x".data] 0).2 = false :=
  ⟨by decide, C5_stop_semantics.2.2.1 0 2 ["x".data] 0 (by decide)⟩

/-! ## Claim C7 -/

/-- C7: with no file matching `adapter-*.pt` in the output directory, the
draft stage returns unsuccessfully without spawning a subprocess; when
such files exist, the selected input checkpoint is one of them and its
modification time is maximal among them (and a process is spawned). -/
theorem C7_draft_checkpoint_selection :
    (∀ (files : List FileEntry) (stopFrom : Option Nat) (lines : List (List Char))
        (exitCode : Int), globAdapterCkpts files = [] →
      trainDraftModel files stopFrom lines exitCode = (false, none, [], false)) ∧
    (∀ (files : List FileEntry) (stopFrom : Option Nat) (lines : List (List Char))
        (exitCode : Int) (f : FileEntry),
      (trainDraftModel files stopFrom lines exitCode).2.1 = some f →
      f ∈ globAdapterCkpts files ∧ ∀ g ∈ globAdapterCkpts files, g.mtime ≤ f.mtime) ∧
    (∀ (files : List FileEntry) (stopFrom : Option Nat) (lines : List (List Char))
        (exitCode : Int), globAdapterCkpts files ≠ [] →
      (trainDraftModel files stopFrom lines exitCode).1 = true) := by
  refine ⟨?_, ?_, ?_⟩
  · intro files stopFrom lines exitCode h
    unfold trainDraftModel
    rw [h]
    rfl
  · intro files stopFrom lines exitCode f hf
    unfold trainDraftModel at hf
    cases hm : pyMaxByMtime (globAdapterCkpts files) with
    | none => rw [hm] at hf; simp at hf
    | some latest =>
      rw [hm] at hf
      rcases hd : draftLoop stopFrom 0 lines with ⟨evs, stopped⟩
      rw [hd] at hf
      dsimp only at hf
      have hfl : f = latest := by
        split_ifs at hf <;> simp only [Option.some.injEq] at hf <;> exact hf.symm
      subst hfl
      exact ⟨pyMaxByMtime_mem hm, pyMaxByMtime_ge hm⟩
  · intro files stopFrom lines exitCode h
    unfold trainDraftModel
    cases hm : pyMaxByMtime (globAdapterCkpts files) with
    | none => exact absurd (pyMaxByMtime_eq_none.mp hm) h
    | some latest =>
      rcases hd : draftLoop stopFrom 0 lines with ⟨evs, stopped⟩
      dsimp only
      split_ifs <;> rfl

/-- Witness for C7: a concrete directory with one matching and one
non-matching file. -/
theorem C7_draft_checkpoint_selection_witness :
    (trainDraftModel [⟨"adapter-final.pt", 5⟩, ⟨"notes.txt", 9⟩] none [] 0).2.1
        = some ⟨"adapter-final.pt", 5⟩ ∧
    (⟨"adapter-final.pt", 5⟩ : FileEntry)
        ∈ globAdapterCkpts [⟨"adapter-final.pt", 5⟩, ⟨"notes.txt", 9⟩] :=
  ⟨by decide,
    (C7_draft_checkpoint_selection.2.1 [⟨"adapter-final.pt", 5⟩, ⟨"notes.txt", 9⟩]
      none [] 0 ⟨"adapter-final.pt", 5⟩ (by decide)).1⟩

/-! ## Claim C8 -/

/-- C8: an export subprocess that exits 0 while the
`<adapter_name>.fmadapter` directory is absent is reported as the
`artifactMissing` failure (the returned boolean is `False`), which is a
different outcome from `success` and from every non-zero-exit failure. -/
theorem C8_export_artifact_missing :
    (∀ f : FileEntry,
      exportAdapter (some f) true 0 false = ExportOutcome.artifactMissing ∧
      exportAdapterBool (some f) true 0 false = false) ∧
    (∀ code : Int,
      ExportOutcome.artifactMissing ≠ ExportOutcome.processExitFailure code) ∧
    ExportOutcome.artifactMissing ≠ ExportOutcome.success :=
  ⟨fun _ => ⟨rfl, rfl⟩, fun _ h => ExportOutcome.noConfusion h,
    fun h => ExportOutcome.noConfusion h⟩

/-! ## Claim C10 -/

lemma runTraining_fs_trace (fs : List DirPath) (output_dir : DirPath) (cfgEpochs : Int)
    (train_draft : Bool) (mainLines : List (List Char)) (mainExit : Int)
    (stopFrom : Option Nat) (draftFiles : List FileEntry) (draftStopFrom : Option Nat)
    (draftLines : List (List Char)) (draftExit : Int) :
    (runTraining fs output_dir cfgEpochs train_draft mainLines mainExit stopFrom
        draftFiles draftStopFrom draftLines draftExit).fs
      = mkdirParents fs output_dir ∧
    (runTraining fs output_dir cfgEpochs train_draft mainLines mainExit stopFrom
        draftFiles draftStopFrom draftLines draftExit).trace.take 2
      = [RunEffect.mkdirOutput output_dir, RunEffect.spawnMain] := by
  unfold runTraining
  rcases hm : monitorTrainingOutput stopFrom cfgEpochs mainLines mainExit with ⟨mainEvs, mainOk⟩
  rcases hd : trainDraftModel draftFiles draftStopFrom draftLines draftExit with
    ⟨spawned, ckpt, dEvs, dOk⟩
  dsimp only
  split_ifs <;> refine ⟨rfl, ?_⟩ <;> simp

/-- C10: every `run_training` call creates the configured output
directory (with all its parent prefixes) before the training subprocess
is spawned, and the directory exists in the resulting filesystem for
every outcome: the filesystem keeps everything it had, gains every
non-empty prefix of the output path, and the effect trace starts with the
mkdir followed by the spawn. -/
theorem C10_output_dir_created (fs : List DirPath) (output_dir : DirPath)
    (cfgEpochs : Int) (train_draft : Bool) (mainLines : List (List Char))
    (mainExit : Int) (stopFrom : Option Nat) (draftFiles : List FileEntry)
    (draftStopFrom : Option Nat) (draftLines : List (List Char)) (draftExit : Int) :
    (∀ d ∈ fs, d ∈ (runTraining fs output_dir cfgEpochs train_draft mainLines mainExit
        stopFrom draftFiles draftStopFrom draftLines draftExit).fs) ∧
    (∀ n : Nat, 0 < n → n ≤ output_dir.length →
      output_dir.take n ∈ (runTraining fs output_dir cfgEpochs train_draft mainLines
        mainExit stopFrom draftFiles draftStopFrom draftLines draftExit).fs) ∧
    (output_dir ≠ [] →
      output_dir ∈ (runTraining fs output_dir cfgEpochs train_draft mainLines mainExit
        stopFrom draftFiles draftStopFrom draftLines draftExit).fs) ∧
    (runTraining fs output_dir cfgEpochs train_draft mainLines mainExit stopFrom
        draftFiles draftStopFrom draftLines draftExit).trace.take 2
      = [RunEffect.mkdirOutput output_dir, RunEffect.spawnMain] := by
  obtain ⟨hfs, htr⟩ := runTraining_fs_trace fs output_dir cfgEpochs train_draft mainLines
    mainExit stopFrom draftFiles draftStopFrom draftLines draftExit
  rw [hfs, htr]
  refine ⟨?_, ?_, ?_, rfl⟩
  · intro d hd
    exact List.mem_append_left _ hd
  · intro n h1 h2
    exact List.mem_append_right _ (take_mem_pathPrefixes output_dir n h1 h2)
  · intro h
    exact List.mem_append_right _ (self_mem_pathPrefixes output_dir h)

/-- Witness for C10: a concrete run on an empty filesystem with a
two-component output path. -/
theorem C10_output_dir_created_witness :
    (["a", "b"] : DirPath) ≠ [] ∧
    ["a", "b"] ∈ (runTraining [] ["a", "b"] 2 false [] 1 none [] none [] 0).fs :=
  ⟨by decide,
    (C10_output_dir_created [] ["a", "b"] 2 false [] 1 none [] none [] 0).2.2.1
      (by decide)⟩

/-! ## Claim C2 -/

/-- C2 counterexample: the claim's formula clamps the progress term into
[0, 1], but the code only takes a minimum with 1: on a first line with no
epoch marker the monitor reports -1/2 where the claimed formula gives 0;
and the draft stage applies no clamping at all, so on `Epoch 7/5` it
reports 11/10 where the claimed formula gives 1. -/
theorem C2_counterexample :
    ((monitorTrainingOutput none 2 ["x".data] 1).1.map
      (fun ev => (scaleMain false ev).fraction) = [-(1 : ℚ)/2]) ∧
    specFraction 1 0 0 2 0 0 = 0 ∧ -(1 : ℚ)/2 ≠ 0 ∧
    ((draftLineEvents ("Epoch 7/5".data)).map (fun ev => (scaleDraft ev).fraction)
      = [(11 : ℚ)/10]) ∧
    specFraction (1/2) (1/2) 7 5 0 0 = 1 ∧ (11 : ℚ)/10 ≠ 1 := by
  decide

/-- C2 amended: for every line the main-stage monitor processes, the
fraction delivered to the caller is `stage_offset + stage_weight *
min(term, 1)` — an upper clamp only, no lower clamp — with the epoch term
alone when `total_batches = 0`, the post-update counter values, stage
weight 1/2 (offset 0) when draft training is enabled and weight 1
otherwise; the draft stage scales by weight 1/2 with offset 1/2 and its
per-line fraction is the unclamped epoch term. -/
theorem C2_fraction_formula :
    (∀ (train_draft : Bool) (st : MonState) (raw : List Char) (st' : MonState)
        (evs : List ProgressEvent), monitorStep st raw = some (st', evs) →
      ∀ ev ∈ evs, 0 < st'.total_epochs ∧
        (scaleMain train_draft ev).fraction =
          (if train_draft then (1 : ℚ)/2 else 1) *
            min (if 0 < st'.total_batches then
                ((st'.current_epoch : ℚ) - 1) / (st'.total_epochs : ℚ) +
                  (st'.current_batch : ℚ) / (st'.total_batches : ℚ)
                    / (st'.total_epochs : ℚ)
              else ((st'.current_epoch : ℚ) - 1) / (st'.total_epochs : ℚ)) 1) ∧
    (∀ (raw : List Char) (cur total : Nat),
      searchEpoch (pyStrip raw) = some (cur, total) → pyStrip raw ≠ [] →
      (draftLineEvents raw).map (fun ev => (scaleDraft ev).fraction)
        = [1/2 + (if 0 < total then ((cur : ℚ) - 1) / (total : ℚ) else 0) * (1/2)]) := by
  constructor
  · intro train_draft st raw st' evs h ev hev
    rcases monitorStep_cases h with ⟨-, -, hevs⟩ | ⟨-, -, ⟨hte, lv, hevs⟩ | ⟨-, hevs⟩⟩
    · subst hevs; cases hev
    · subst hevs
      rw [List.mem_singleton] at hev
      subst hev
      refine ⟨hte, ?_⟩
      have hcp : codeProgress st' = min (if 0 < st'.total_batches then
          ((st'.current_epoch : ℚ) - 1) / (st'.total_epochs : ℚ) +
            (st'.current_batch : ℚ) / (st'.total_batches : ℚ) / (st'.total_epochs : ℚ)
        else ((st'.current_epoch : ℚ) - 1) / (st'.total_epochs : ℚ)) 1 := rfl
      cases train_draft <;> simp [scaleMain, ← hcp] <;> ring
    · subst hevs; cases hev
  · intro raw cur total hse hne
    simp only [draftLineEvents]
    rw [if_neg hne, hse]
    simp [scaleDraft]

/-- Witness for C2: the step on `Epoch 1/2` from the initial counters. -/
theorem C2_fraction_formula_witness :
    monitorStep ⟨0, 2, 0, 0⟩ "Epoch 1/2".data
      = some (⟨1, 2, 0, 0⟩, [⟨0, ProgressMsg.epochOnly 1 2, none⟩]) ∧
    (0 : Int) < (MonState.mk 1 2 0 0).total_epochs :=
  ⟨by decide,
    (C2_fraction_formula.1 false ⟨0, 2, 0, 0⟩ "Epoch 1/2".data ⟨1, 2, 0, 0⟩
      [⟨0, ProgressMsg.epochOnly 1 2, none⟩] (by decide)
      ⟨0, ProgressMsg.epochOnly 1 2, none⟩ (List.mem_singleton.mpr rfl)).1⟩

/-! ## Claim C3 -/

/-- C3 counterexample: one run in which an emitted fraction is negative
(violating the claimed [0,1] bound) and in which the emitted sequence
decreases (19/20 followed by 11/20) because the stale batch counter 9/10
from epoch 1 is still held when the `Epoch 2/2` marker arrives and is
then replaced by the fresh batch counter 1/10. -/
theorem C3_counterexample :
    ((monitorTrainingOutput none 2
      ["x".data, "Epoch 1/2".data, "Training 9/10".data, "Epoch 2/2".data,
        "Training 1/10".data] 0).1.map (fun ev => ev.fraction)
      = [-(1 : ℚ)/2, 0, 9/20, 19/20, 11/20, 1]) ∧
    -(1 : ℚ)/2 < 0 ∧ (11 : ℚ)/20 < 19/20 := by
  decide

/-- C3 amended: every fraction the main-stage monitor emits is at most 1;
the progress value is non-negative once the parsed epoch counter is at
least 1; for fixed totals the progress value is monotone non-decreasing
in the (epoch, batch) counters — provided the earlier batch counter does
not exceed its total, which fails at epoch boundaries with a stale batch
counter — and stage scaling preserves the order. -/
theorem C3_bounds_and_monotonicity :
    (∀ (stopFrom : Option Nat) (cfgEpochs : Int) (lines : List (List Char))
        (exitCode : Int),
      ∀ ev ∈ (monitorTrainingOutput stopFrom cfgEpochs lines exitCode).1,
        ev.fraction ≤ 1) ∧
    (∀ st : MonState, 1 ≤ st.current_epoch → 0 < st.total_epochs →
      0 ≤ st.current_batch → 0 ≤ codeProgress st) ∧
    (∀ st st' : MonState, st.total_epochs = st'.total_epochs →
      st.total_batches = st'.total_batches → 0 < st.total_epochs →
      0 < st.total_batches → 1 ≤ st.current_epoch → 0 ≤ st.current_batch →
      st.current_batch ≤ st.total_batches → 0 ≤ st'.current_batch →
      (st.current_epoch < st'.current_epoch ∨
        (st.current_epoch = st'.current_epoch ∧
          st.current_batch ≤ st'.current_batch)) →
      codeProgress st ≤ codeProgress st') ∧
    (∀ (train_draft : Bool) (ev ev' : ProgressEvent),
      ev.fraction ≤ ev'.fraction →
      (scaleMain train_draft ev).fraction ≤ (scaleMain train_draft ev').fraction) := by
  refine ⟨?_, ?_, ?_, ?_⟩
  · intro stopFrom cfgEpochs lines exitCode ev hev
    unfold monitorTrainingOutput at hev
    rcases hr : monitorLoop stopFrom 0 ⟨0, cfgEpochs, 0, 0⟩ lines with ⟨evs, out⟩
    cases out with
    | finished st =>
      simp only [hr] at hev
      by_cases he : exitCode = 0
      · rw [if_pos he] at hev
        dsimp only at hev
        rcases List.mem_append.mp hev with h2 | h2
        · exact monitorLoop_fraction_le_one stopFrom lines 0 _ ev (by rw [hr]; exact h2)
        · rw [List.mem_singleton] at h2
          subst h2
          exact le_refl 1
      · rw [if_neg he] at hev
        exact monitorLoop_fraction_le_one stopFrom lines 0 _ ev (by rw [hr]; exact hev)
    | stopped =>
      simp only [hr] at hev
      exact monitorLoop_fraction_le_one stopFrom lines 0 _ ev (by rw [hr]; exact hev)
    | excFloat =>
      simp only [hr] at hev
      exact monitorLoop_fraction_le_one stopFrom lines 0 _ ev (by rw [hr]; exact hev)
  · intro st h1 h2 h3
    have he : (0 : ℚ) ≤ (st.current_epoch : ℚ) - 1 := by
      have : (1 : ℚ) ≤ (st.current_epoch : ℚ) := by exact_mod_cast h1
      linarith
    have htE : (0 : ℚ) < (st.total_epochs : ℚ) := by exact_mod_cast h2
    have hb : (0 : ℚ) ≤ (st.current_batch : ℚ) := by exact_mod_cast h3
    unfold codeProgress
    dsimp only
    split_ifs with htb
    · have htB : (0 : ℚ) < (st.total_batches : ℚ) := by exact_mod_cast htb
      refine le_min (add_nonneg (div_nonneg he htE.le) ?_) zero_le_one
      exact div_nonneg (div_nonneg hb htB.le) htE.le
    · exact le_min (div_nonneg he htE.le) zero_le_one
  · intro st st' hte htb hE hB he1 hb0 hbB hb'0 hlex
    unfold codeProgress
    dsimp only
    rw [← hte, ← htb, if_pos hB, if_pos hB]
    apply min_le_min _ le_rfl
    have htEq : (0 : ℚ) < (st.total_epochs : ℚ) := by exact_mod_cast hE
    have htBq : (0 : ℚ) < (st.total_batches : ℚ) := by exact_mod_cast hB
    rcases hlex with hlt | ⟨heq, hble⟩
    · have hB1 : (st.current_batch : ℚ) / (st.total_batches : ℚ)
          / (st.total_epochs : ℚ) ≤ 1 / (st.total_epochs : ℚ) := by
        apply (div_le_div_right htEq).mpr
        exact (div_le_one htBq).mpr (by exact_mod_cast hbB)
      have hstep : ((st.current_epoch : ℚ) - 1) / (st.total_epochs : ℚ)
          + 1 / (st.total_epochs : ℚ) = (st.current_epoch : ℚ) / (st.total_epochs : ℚ) := by
        rw [div_add_div_same, sub_add_cancel]
      have hup : (st.current_epoch : ℚ) / (st.total_epochs : ℚ)
          ≤ ((st'.current_epoch : ℚ) - 1) / (st.total_epochs : ℚ) := by
        apply (div_le_div_right htEq).mpr
        have hint : st.current_epoch + 1 ≤ st'.current_epoch := hlt
        have : (st.current_epoch : ℚ) + 1 ≤ (st'.current_epoch : ℚ) := by
          exact_mod_cast hint
        linarith
      have hb'q : (0 : ℚ) ≤ (st'.current_batch : ℚ) := by exact_mod_cast hb'0
      have hnn : (0 : ℚ) ≤ (st'.current_batch : ℚ) / (st.total_batches : ℚ)
          / (st.total_epochs : ℚ) :=
        div_nonneg (div_nonneg hb'q htBq.le) htEq.le
      linarith
    · rw [heq]
      apply add_le_add_left
      apply (div_le_div_right htEq).mpr
      apply (div_le_div_right htBq).mpr
      exact_mod_cast hble
  · intro train_draft ev ev' h
    cases train_draft <;> simp [scaleMain] <;> linarith

/-- Witness for C3: the progress value at epoch 1 of 2 is non-negative. -/
theorem C3_bounds_and_monotonicity_witness :
    (1 : Int) ≤ (MonState.mk 1 2 0 0).current_epoch ∧
    (0 : Int) < (MonState.mk 1 2 0 0).total_epochs ∧
    0 ≤ codeProgress ⟨1, 2, 0, 0⟩ :=
  ⟨by decide, by decide,
    C3_bounds_and_monotonicity.2.1 ⟨1, 2, 0, 0⟩ (by decide) (by decide) (by decide)⟩

/-! ## Claim C6 -/

/-- C6: with `train_draft = false` the final fraction a successful run
reports is exactly 1; with `train_draft = true` the main stage's last
reported fraction is exactly 1/2 (main-stage completion), and the final
fraction of a successful two-stage run is exactly 1. -/
theorem C6_final_progress :
    (∀ (fs : List DirPath) (output_dir : DirPath) (cfgEpochs mainExit : Int)
        (mainLines : List (List Char)) (stopFrom : Option Nat)
        (draftFiles : List FileEntry) (draftStopFrom : Option Nat)
        (draftLines : List (List Char)) (draftExit : Int),
      (runTraining fs output_dir cfgEpochs false mainLines mainExit stopFrom
          draftFiles draftStopFrom draftLines draftExit).success = true →
      ((runTraining fs output_dir cfgEpochs false mainLines mainExit stopFrom
          draftFiles draftStopFrom draftLines draftExit).events.map
        (fun ev => ev.fraction)).getLast? = some 1) ∧
    (∀ (stopFrom : Option Nat) (cfgEpochs : Int) (mainLines : List (List Char))
        (mainExit : Int),
      (monitorTrainingOutput stopFrom cfgEpochs mainLines mainExit).2 = true →
      ((monitorTrainingOutput stopFrom cfgEpochs mainLines mainExit).1.map
        (fun ev => (scaleMain true ev).fraction)).getLast? = some (1/2)) ∧
    (∀ (fs : List DirPath) (output_dir : DirPath) (cfgEpochs mainExit : Int)
        (mainLines : List (List Char)) (stopFrom : Option Nat)
        (draftFiles : List FileEntry) (draftStopFrom : Option Nat)
        (draftLines : List (List Char)) (draftExit : Int),
      (runTraining fs output_dir cfgEpochs true mainLines mainExit stopFrom
          draftFiles draftStopFrom draftLines draftExit).success = true →
      ((runTraining fs output_dir cfgEpochs true mainLines mainExit stopFrom
          draftFiles draftStopFrom draftLines draftExit).events.map
        (fun ev => ev.fraction)).getLast? = some 1) := by
  refine ⟨?_, ?_, ?_⟩
  · intro fs output_dir cfgEpochs mainExit mainLines stopFrom draftFiles
      draftStopFrom draftLines draftExit h
    unfold runTraining at h ⊢
    rcases hm : monitorTrainingOutput stopFrom cfgEpochs mainLines mainExit with
      ⟨mainEvs, mainOk⟩
    simp only [hm] at h ⊢
    rw [if_neg (by simp)] at h ⊢
    dsimp only at h ⊢
    have hlast : mainEvs.getLast? = some ⟨1, .completed, none⟩ := by
      have := @monitor_success_getLast stopFrom cfgEpochs mainLines mainExit (by rw [hm]; exact h)
      rw [hm] at this
      exact this
    rw [List.map_map, List.getLast?_map, hlast]
    simp [scaleMain]
  · intro stopFrom cfgEpochs mainLines mainExit h
    rw [List.getLast?_map, monitor_success_getLast h]
    simp [scaleMain]
  · intro fs output_dir cfgEpochs mainExit mainLines stopFrom draftFiles
      draftStopFrom draftLines draftExit h
    unfold runTraining at h ⊢
    rcases hm : monitorTrainingOutput stopFrom cfgEpochs mainLines mainExit with
      ⟨mainEvs, mainOk⟩
    rcases hd : trainDraftModel draftFiles draftStopFrom draftLines draftExit with
      ⟨spawned, ckpt, dEvs, dOk⟩
    simp only [hm, hd] at h ⊢
    by_cases hOk : mainOk = true
    · rw [if_pos ⟨hOk, trivial⟩] at h ⊢
      dsimp only at h ⊢
      have hdOk : dOk = true := by
        rcases Bool.and_eq_true .. |>.mp h with ⟨-, h2⟩
        exact h2
      have hdlast : dEvs.getLast? = some ⟨1, .draftCompleted, none⟩ := by
        have := @draft_success_events draftFiles draftStopFrom draftLines draftExit (by rw [hd]; exact hdOk)
        rw [hd] at this
        exact this
      rw [List.map_append, List.getLast?_append, List.map_map, List.getLast?_map,
        hdlast]
      simp [scaleDraft]
      norm_num
    · rw [if_neg (by simp [hOk])] at h
      dsimp only at h
      exact absurd h hOk

/-- Witness for C6: a run with no output lines and exit code 0 succeeds
and its last reported fraction is 1. -/
theorem C6_final_progress_witness :
    (runTraining [] ["out"] 2 false [] 0 none [] none [] 0).success = true ∧
    ((runTraining [] ["out"] 2 false [] 0 none [] none [] 0).events.map
      (fun ev => ev.fraction)).getLast? = some 1 :=
  ⟨by decide, C6_final_progress.1 [] ["out"] 2 0 [] none [] none [] 0 (by decide)⟩

/-! ## Claim C9 -/

/-- C9 counterexample: the claim says that before any `Epoch A/B` line
has been observed the emitted fraction is `(0-1)/total_epochs`; but a
batch-pattern line seen before any epoch line contributes its batch term:
on `Training 5/10` with 2 configured epochs the monitor emits -1/4, not
-1/2.  Also, a line whose loss token fails `float` conversion emits no
event at all, so not every non-empty line yields a progress event. -/
theorem C9_counterexample :
    ((monitorTrainingOutput none 2 ["Training 5/10".data] 1).1.map
      (fun ev => ev.fraction) = [-(1 : ℚ)/4]) ∧
    -(1 : ℚ)/4 ≠ ((0 : ℚ) - 1) / 2 ∧
    (monitorTrainingOutput none 2 ["loss: 1.2.3".data] 1).1 = [] := by
  decide

/-- C9 amended: every non-empty line whose processing does not raise the
loss `ValueError` emits exactly one progress event when the running
`total_epochs` is positive; a line matching neither the epoch nor the
batch pattern leaves the counters unchanged and re-emits the fraction
computed from the last-seen counters; and from the initial counters
(before any epoch or batch line) that fraction is `-1/total_epochs`,
i.e. `(0-1)/total_epochs`. -/
theorem C9_emission_behavior :
    (∀ (st : MonState) (raw : List Char) (st' : MonState)
        (evs : List ProgressEvent), monitorStep st raw = some (st', evs) →
      pyStrip raw ≠ [] → 0 < st'.total_epochs → evs.length = 1) ∧
    (∀ (st : MonState) (raw : List Char) (st' : MonState)
        (evs : List ProgressEvent), monitorStep st raw = some (st', evs) →
      searchEpoch (pyStrip raw) = none → searchBatch (pyStrip raw) = none →
      st' = st ∧ ∀ ev ∈ evs, ev.fraction = codeProgress st) ∧
    (∀ cfgEpochs : Int, 0 < cfgEpochs →
      codeProgress ⟨0, cfgEpochs, 0, 0⟩ = -1 / (cfgEpochs : ℚ)) := by
  refine ⟨?_, ?_, ?_⟩
  · intro st raw st' evs h hne hte
    rcases monitorStep_cases h with ⟨he, -, -⟩ | ⟨-, -, ⟨-, lv, hevs⟩ | ⟨hte2, -⟩⟩
    · exact absurd he hne
    · subst hevs; rfl
    · exact absurd hte hte2
  · intro st raw st' evs h hse hsb
    have hupd : lineUpdate st (pyStrip raw) = st := by
      unfold lineUpdate
      rw [hse, hsb]
    rcases monitorStep_cases h with ⟨-, hst, hevs⟩ | ⟨-, hst, ⟨-, lv, hevs⟩ | ⟨-, hevs⟩⟩
    · subst hevs
      exact ⟨hst, fun ev hev => absurd hev (List.not_mem_nil ev)⟩
    · rw [hupd] at hst
      refine ⟨hst, fun ev hev => ?_⟩
      subst hevs
      rw [List.mem_singleton] at hev
      subst hev
      rw [hst]
    · subst hevs
      rw [hupd] at hst
      exact ⟨hst, fun ev hev => absurd hev (List.not_mem_nil ev)⟩
  · intro cfgEpochs h
    unfold codeProgress
    dsimp only
    rw [if_neg (lt_irrefl (0 : Int))]
    have hc : (0 : ℚ) < (cfgEpochs : ℚ) := by exact_mod_cast h
    have h1 : (((0 : Int) : ℚ) - 1) / (cfgEpochs : ℚ) = -1 / (cfgEpochs : ℚ) := by
      norm_num
    rw [h1]
    refine min_eq_left ?_
    have hneg : -1 / (cfgEpochs : ℚ) ≤ 0 :=
      le_of_lt (div_neg_of_neg_of_pos (by norm_num) hc)
    linarith

/-- Witness for C9: with 2 configured epochs the initial fraction is
-1/2. -/
theorem C9_emission_behavior_witness :
    (0 : Int) < 2 ∧ codeProgress ⟨0, 2, 0, 0⟩ = -1 / ((2 : Int) : ℚ) :=
  ⟨by decide, C9_emission_behavior.2.2 2 (by decide)⟩

end ClaimTheorems

end AFMTrainer
